import Mathlib

/-!
Shallow embedding of the figure/table extraction scripts of the
journal-club repository (`lib/journal-club-core`), together with proofs
about the embedded definitions.

Coordinates on a PDF page are modelled as rationals (`ℚ`): the Python code
computes only with `+`, `-`, `*`, `min`, `max`, `abs` and comparisons, so
rational arithmetic reproduces the float computations exactly on the
rational inputs we reason about.

External library calls (PyMuPDF rendering, base64 encoding, ftfy, Unicode
tables, regex word/space classes) are abstracted as parameters of the
embedded functions; everything the scripts themselves compute is embedded
concretely.
-/

namespace JournalClub

/-- `BoundingBox` from `pdffigures2-python.py` (a dataclass of four
coordinates). -/
structure BoundingBox where
  x1 : ℚ
  y1 : ℚ
  x2 : ℚ
  y2 : ℚ
  deriving Repr, DecidableEq

/-- `BoundingBox.area` from `pdffigures2-python.py`. -/
def BoundingBox.area (b : BoundingBox) : ℚ :=
  (b.x2 - b.x1) * (b.y2 - b.y1)

/-- Python `str.lower`, modelled on the ASCII range (the strings it is
applied to in the claims are ASCII, where the two agree). -/
def lowerStr (s : String) : String := ⟨s.toList.map Char.toLower⟩

/-- Python `str.strip()` with no argument: remove leading and trailing
whitespace. -/
def pyStrip (s : String) : String :=
  ⟨((s.toList.dropWhile Char.isWhitespace).reverse.dropWhile
      Char.isWhitespace).reverse⟩

/-- Helper for `replaceStr`: fuel-indexed scan (the fuel starts at the
text length; each step consumes at least one character of the text for a
non-empty pattern, so it never runs out). -/
def replaceAux (pat repl : List Char) : Nat → List Char → List Char
  | 0, t => t
  | _, [] => []
  | fuel + 1, c :: rest =>
    if pat.isPrefixOf (c :: rest) ∧ pat ≠ [] then
      repl ++ replaceAux pat repl fuel ((c :: rest).drop pat.length)
    else c :: replaceAux pat repl fuel rest

/-- Python `s.replace(pat, repl)` for a non-empty pattern: replace all
non-overlapping occurrences, scanning left to right. -/
def replaceStr (s pat repl : String) : String :=
  ⟨replaceAux pat.toList repl.toList s.toList.length s.toList⟩

/-- A caption candidate, as built by `_find_captions`:
`{'type': ..., 'text': ..., 'bbox': ..., 'match': ...}`.  The dict key
`match` is a Lean keyword, so the field is called `cmatch`. -/
structure Caption where
  ctype  : String
  text   : String
  bbox   : BoundingBox
  cmatch : String
  deriving Repr, DecidableEq

/-- The `Figure` dataclass from `pdffigures2-python.py`. -/
structure Figure where
  figure_type : String
  name        : String
  caption     : String
  page        : Nat
  bbox        : BoundingBox
  image_data  : Option String
  deriving Repr, DecidableEq

/-! ### `_find_nearest_caption` -/

/-- The vertical distance computed inside `_find_nearest_caption`:
caption below (`caption.y1 > fig.y2`), caption above (`caption.y2 < fig.y1`),
otherwise overlapping (distance 0). -/
def vertDistance (figBBox : BoundingBox) (c : Caption) : ℚ :=
  if c.bbox.y1 > figBBox.y2 then c.bbox.y1 - figBBox.y2
  else if c.bbox.y2 < figBBox.y1 then figBBox.y1 - c.bbox.y2
  else 0

/-- One iteration of the loop in `_find_nearest_caption`.  The running
state carries the best caption together with `best_distance`
(`none` models the initial `best_distance = inf`). -/
def nearestStep (figBBox : BoundingBox) (best : Option (Caption × ℚ))
    (c : Caption) : Option (Caption × ℚ) :=
  if |c.bbox.x1 - figBBox.x1| > 100 then best
  else
    let d := vertDistance figBBox c
    match best with
    | none => if d < 100 then some (c, d) else none
    | some (b, bd) => if d < bd ∧ d < 100 then some (c, d) else some (b, bd)

/-- `_find_nearest_caption` from `pdffigures2-python.py`. -/
def findNearestCaption (figBBox : BoundingBox) (captions : List Caption) :
    Option Caption :=
  (captions.foldl (nearestStep figBBox) none).map Prod.fst

/-- A caption candidate "qualifies" for a figure box, in the words of the
claim: start x-coordinates differ by at most 100 units and the vertical
gap is strictly less than 100 units. -/
def qualifies (figBBox : BoundingBox) (c : Caption) : Prop :=
  |c.bbox.x1 - figBBox.x1| ≤ 100 ∧ vertDistance figBBox c < 100

instance (figBBox : BoundingBox) (c : Caption) :
    Decidable (qualifies figBBox c) := by
  unfold qualifies; infer_instance

/-- The selection rule in the words of the claim: among the qualifying
candidates, pick the one with minimum vertical gap, the earliest-scanned
candidate winning ties (a strict improvement is required to displace the
current best, so the first candidate attaining the minimum is kept). -/
def selectStep (figBBox : BoundingBox) (best : Option Caption) (c : Caption) :
    Option Caption :=
  match best with
  | none => some c
  | some b =>
      if vertDistance figBBox c < vertDistance figBBox b then some c
      else some b

/-- The selection rule in the words of the claim: among the qualifying
candidates, pick the one with minimum vertical gap, the earliest-scanned
candidate winning ties (`selectStep` requires a strict improvement to
displace the current best, so the first candidate attaining the minimum is
kept). -/
def claimSelect (figBBox : BoundingBox) (captions : List Caption) :
    Option Caption :=
  (captions.filter (fun c => decide (qualifies figBBox c))).foldl
    (selectStep figBBox) none

/-- Relation between the state of the implementation fold and the state of
the specification fold. -/
def nearestRel (figBBox : BoundingBox) (acc : Option (Caption × ℚ))
    (spec : Option Caption) : Prop :=
  match acc, spec with
  | none, none => True
  | some (c, d), some c' => c = c' ∧ d = vertDistance figBBox c ∧ d < 100
  | _, _ => False

lemma nearestStep_not_qualifies {figBBox : BoundingBox} {c : Caption}
    (h : ¬ qualifies figBBox c) (acc : Option (Caption × ℚ)) :
    nearestStep figBBox acc c = acc := by
  unfold qualifies at h
  push_neg at h
  unfold nearestStep
  by_cases hx : |c.bbox.x1 - figBBox.x1| > 100
  · simp [hx]
  · have hd : ¬ vertDistance figBBox c < 100 := by
      have := h (le_of_not_lt hx)
      exact not_lt.mpr this
    simp only [if_neg hx]
    cases acc with
    | none => simp [hd]
    | some p =>
        obtain ⟨b, bd⟩ := p
        simp [hd]

lemma nearestStep_qualifies {figBBox : BoundingBox} {c : Caption}
    (h : qualifies figBBox c) (acc : Option (Caption × ℚ)) (spec : Option Caption)
    (hrel : nearestRel figBBox acc spec) :
    nearestRel figBBox (nearestStep figBBox acc c) (selectStep figBBox spec c) := by
  obtain ⟨hx, hd⟩ := h
  have hx' : ¬ |c.bbox.x1 - figBBox.x1| > 100 := not_lt.mpr hx
  unfold nearestStep selectStep
  cases acc with
  | none =>
      cases spec with
      | none => simp [hx', hd, nearestRel]
      | some b => exact absurd hrel (by simp [nearestRel])
  | some p =>
      obtain ⟨b, bd⟩ := p
      cases spec with
      | none => exact absurd hrel (by simp [nearestRel])
      | some b' =>
          obtain ⟨hb, hbd, hlt⟩ := hrel
          subst hb hbd
          by_cases hc : vertDistance figBBox c < vertDistance figBBox b
          · simp [hx', hc, hd, nearestRel]
          · simp [hx', hc, hd, nearestRel, hlt]

lemma nearest_fold_rel (figBBox : BoundingBox) :
    ∀ (l : List Caption) (acc : Option (Caption × ℚ)) (spec : Option Caption),
      nearestRel figBBox acc spec →
      nearestRel figBBox (l.foldl (nearestStep figBBox) acc)
        ((l.filter (fun c => decide (qualifies figBBox c))).foldl
          (selectStep figBBox) spec) := by
  intro l
  induction l with
  | nil => intro acc spec h; simpa using h
  | cons c rest ih =>
      intro acc spec h
      by_cases hq : qualifies figBBox c
      · have hstep := nearestStep_qualifies hq acc spec h
        simpa [List.filter_cons, hq] using ih _ _ hstep
      · rw [List.foldl_cons, nearestStep_not_qualifies hq]
        simpa [List.filter_cons, hq] using ih acc spec h

lemma findNearestCaption_eq_claimSelect (figBBox : BoundingBox)
    (captions : List Caption) :
    findNearestCaption figBBox captions = claimSelect figBBox captions := by
  have h := nearest_fold_rel figBBox captions none none (by trivial)
  unfold findNearestCaption claimSelect
  revert h
  cases hacc : captions.foldl (nearestStep figBBox) none with
  | none =>
      cases hspec : (captions.filter (fun c => decide (qualifies figBBox c))).foldl
          (selectStep figBBox) none with
      | none => intro _; rfl
      | some b => intro h; exact absurd h (by simp [nearestRel])
  | some p =>
      obtain ⟨c, d⟩ := p
      cases hspec : (captions.filter (fun c => decide (qualifies figBBox c))).foldl
          (selectStep figBBox) none with
      | none => intro h; exact absurd h (by simp [nearestRel])
      | some b =>
          intro h
          obtain ⟨hb, _, _⟩ := h
          show some c = some b
          rw [hb]

/-! ### `_extract_images` -/

/-- One entry of `page.get_images()` together with the data obtained from
it inside the loop of `_extract_images`: the placement rectangles returned
by `page.get_image_rects(xref)`, the pixel dimensions of
`fitz.Pixmap(page.parent, xref)`, and the base64 encoding of its PNG bytes
(the encoding itself is external, so it is carried as an opaque string
field). -/
structure ImageInfo where
  rects     : List BoundingBox
  pixWidth  : Nat
  pixHeight : Nat
  dataB64   : String
  deriving Repr, DecidableEq

/-- The loop body of `_extract_images`, iterating with the enumeration
index `i` (`img_index`).  `fullCap` abstracts `_extract_full_caption`
(whose output the claims do not constrain). -/
def extractImagesAux (fullCap : Caption → String) (captions : List Caption)
    (pageNum : Nat) : Nat → List ImageInfo → List Figure
  | _, [] => []
  | i, img :: rest =>
    let tail := extractImagesAux fullCap captions pageNum (i + 1) rest
    match img.rects with
    | [] => tail
    | rect :: _ =>
      if rect.area < 10000 then tail
      else if img.pixWidth < 100 ∨ img.pixHeight < 100 then tail
      else
        let fig :=
          match findNearestCaption rect captions with
          | some ci =>
              Figure.mk ci.ctype (pyStrip ci.cmatch) (fullCap ci) pageNum rect
                (some ("data:image/png;base64," ++ img.dataB64))
          | none =>
              Figure.mk "Figure" ("Figure " ++ toString (i + 1)) "" pageNum rect
                (some ("data:image/png;base64," ++ img.dataB64))
        fig :: tail

/-- `_extract_images` from `pdffigures2-python.py`. -/
def extractImages (fullCap : Caption → String) (images : List ImageInfo)
    (captions : List Caption) (pageNum : Nat) : List Figure :=
  extractImagesAux fullCap captions pageNum 0 images

/-! ### `_extract_tables` -/

/-- One entry of `page.get_text("dict")['blocks']`: its `type` field
(0 for text) and its bounding box. -/
structure Block where
  btype : Nat
  bbox  : BoundingBox
  deriving Repr, DecidableEq

/-- `_bbox_in_region` from `pdffigures2-python.py`. -/
def bboxInRegion (bbox region : BoundingBox) : Bool :=
  decide (bbox.x1 ≥ region.x1 ∧ bbox.y1 ≥ region.y1 ∧
    bbox.x2 ≤ region.x2 ∧ bbox.y2 ≤ region.y2)

/-- The search rectangle of `_extract_tables`: slightly to the left of the
caption, below it, extended to the right, looking down up to 500 units. -/
def tableSearchBBox (captionBBox : BoundingBox) : BoundingBox :=
  ⟨captionBBox.x1 - 50, captionBBox.y2, captionBBox.x2 + 200,
    captionBBox.y2 + 500⟩

/-- The blocks collected for one table caption: text blocks (type 0) whose
bounding boxes lie entirely within the search rectangle. -/
def tableBlocks (blocks : List Block) (captionBBox : BoundingBox) :
    List Block :=
  blocks.filter (fun b =>
    b.btype == 0 && bboxInRegion b.bbox (tableSearchBBox captionBBox))

/-- The body of the caption loop of `_extract_tables` for one table
caption.  `render` abstracts `page.get_pixmap` + base64 encoding of the
clipped 2x render.  Note that the source computes `min_y` over the
collected blocks but then uses `caption_bbox.y1` as the top edge of the
emitted bounding box. -/
def extractTableForCaption (render : BoundingBox → String)
    (fullCap : Caption → String) (blocks : List Block) (pageNum : Nat)
    (ci : Caption) : Option Figure :=
  let cb := ci.bbox
  match tableBlocks blocks cb with
  | [] => none
  | b0 :: rest =>
    let minX := rest.foldl (fun a b => min a b.bbox.x1) b0.bbox.x1
    let maxX := rest.foldl (fun a b => max a b.bbox.x2) b0.bbox.x2
    let maxY := rest.foldl (fun a b => max a b.bbox.y2) b0.bbox.y2
    let tableBBox : BoundingBox := ⟨minX, cb.y1, maxX, maxY⟩
    some (Figure.mk "Table" (pyStrip ci.cmatch) (fullCap ci) pageNum tableBBox
      (some ("data:image/png;base64," ++ render tableBBox)))

/-- `_extract_tables` from `pdffigures2-python.py`. -/
def extractTables (render : BoundingBox → String)
    (fullCap : Caption → String) (blocks : List Block)
    (captions : List Caption) (pageNum : Nat) : List Figure :=
  (captions.filter (fun c => c.ctype == "Table")).filterMap
    (extractTableForCaption render fullCap blocks pageNum)

/-- The union bounding box of a non-empty list of blocks (what the claim
calls "the union bounding box of the collected text blocks"). -/
def blocksUnionBBox (b0 : Block) (rest : List Block) : BoundingBox :=
  ⟨rest.foldl (fun a b => min a b.bbox.x1) b0.bbox.x1,
   rest.foldl (fun a b => min a b.bbox.y1) b0.bbox.y1,
   rest.foldl (fun a b => max a b.bbox.x2) b0.bbox.x2,
   rest.foldl (fun a b => max a b.bbox.y2) b0.bbox.y2⟩

/-! ### `_extract_vector_graphics` and `_group_drawings` -/

/-- A `fitz.Rect` (as used for drawings). -/
structure Rect where
  x0 : ℚ
  y0 : ℚ
  x1 : ℚ
  y1 : ℚ
  deriving Repr, DecidableEq

/-- `fitz.Rect.width`. -/
def Rect.width (r : Rect) : ℚ := r.x1 - r.x0

/-- `fitz.Rect.height`. -/
def Rect.height (r : Rect) : ℚ := r.y1 - r.y0

/-- One entry of `page.get_drawings()` in `pdffigures2-python.py`; only
its `rect` is consulted.  `none` models a missing (or falsy) `rect`. -/
structure Drawing where
  rect : Option Rect
  deriving Repr, DecidableEq

/-- One step of the inner loop of `_group_drawings` at candidate index
`j`: an unused drawing whose rectangle's top-left corner is within 200
units of the seed's in both x and y joins the group. -/
def groupInnerStep (drawings : List Drawing) (i : Nat) (r1 : Rect)
    (st : List Drawing × List Nat) (j : Nat) : List Drawing × List Nat :=
  if j ∈ st.2 ∨ j = i then st
  else
    match drawings.get? j with
    | none => st
    | some o =>
      match o.rect with
      | none => st
      | some r2 =>
        if |r1.x0 - r2.x0| < 200 ∧ |r1.y0 - r2.y0| < 200 then
          (st.1 ++ [o], st.2 ++ [j])
        else st

/-- The inner loop of `_group_drawings`: scan all indices `j`. -/
def groupInner (drawings : List Drawing) (i : Nat) (r1 : Rect)
    (start : List Drawing × List Nat) : List Drawing × List Nat :=
  (List.range drawings.length).foldl (groupInnerStep drawings i r1) start

/-- The outer loop body of `_group_drawings`.  The state is the list of
finished groups together with the `used` index set.  Note the source's
`if not rect1: continue`, which marks the seed used but never appends its
group. -/
def groupStep (drawings : List Drawing)
    (st : List (List Drawing) × List Nat) (i : Nat) :
    List (List Drawing) × List Nat :=
  if i ∈ st.2 then st
  else
    match drawings.get? i with
    | none => st
    | some d =>
      let used := st.2 ++ [i]
      match d.rect with
      | none => (st.1, used)
      | some r1 =>
        let res := groupInner drawings i r1 ([d], used)
        (st.1 ++ [res.1], res.2)

/-- `_group_drawings` from `pdffigures2-python.py`. -/
def groupDrawings (drawings : List Drawing) : List (List Drawing) :=
  ((List.range drawings.length).foldl (groupStep drawings) ([], [])).1

/-- A drawing is close to the seed rectangle `r1` in the sense of
`_group_drawings`: it has a rectangle whose top-left corner is within 200
units of the seed's in both x and y (strictly, as in the source). -/
def closeToSeed (r1 : Rect) (d : Drawing) : Prop :=
  ∃ r2, d.rect = some r2 ∧ |r1.x0 - r2.x0| < 200 ∧ |r1.y0 - r2.y0| < 200

/-- The shape of every group produced by `_group_drawings`: a seed with a
rectangle followed by members close to that seed. -/
def groupOK (g : List Drawing) : Prop :=
  ∃ seed rest r1, g = seed :: rest ∧ seed.rect = some r1 ∧
    ∀ d ∈ rest, closeToSeed r1 d

/-- The union bounding box of a drawing group, as computed in
`_extract_vector_graphics` (`d.get('rect', page.rect)` supplies
`pageRect` when a drawing lacks a rectangle). -/
def groupUnionBBox (pageRect : Rect) (d0 : Drawing) (rest : List Drawing) :
    BoundingBox :=
  ⟨rest.foldl (fun a d => min a (d.rect.getD pageRect).x0)
      (d0.rect.getD pageRect).x0,
   rest.foldl (fun a d => min a (d.rect.getD pageRect).y0)
      (d0.rect.getD pageRect).y0,
   rest.foldl (fun a d => max a (d.rect.getD pageRect).x1)
      (d0.rect.getD pageRect).x1,
   rest.foldl (fun a d => max a (d.rect.getD pageRect).y1)
      (d0.rect.getD pageRect).y1⟩

/-- The body of the group loop of `_extract_vector_graphics` for one
group.  `render` abstracts the clipped 2x `get_pixmap` render plus base64
encoding. -/
def processGroup (render : BoundingBox → String)
    (fullCap : Caption → String) (pageRect : Rect)
    (captions : List Caption) (pageNum : Nat) (group : List Drawing) :
    Option Figure :=
  if group.length < 5 then none
  else
    match group with
    | [] => none
    | d0 :: rest =>
      let bbox := groupUnionBBox pageRect d0 rest
      if bbox.area < 10000 then none
      else
        match findNearestCaption bbox captions with
        | none => none
        | some ci =>
          some (Figure.mk ci.ctype (pyStrip ci.cmatch) (fullCap ci) pageNum bbox
            (some ("data:image/png;base64," ++ render bbox)))

/-- `_extract_vector_graphics` from `pdffigures2-python.py`. -/
def extractVectorGraphics (render : BoundingBox → String)
    (fullCap : Caption → String) (pageRect : Rect)
    (drawings : List Drawing) (captions : List Caption) (pageNum : Nat) :
    List Figure :=
  if drawings = [] then []
  else
    (groupDrawings drawings).filterMap
      (processGroup render fullCap pageRect captions pageNum)

/-! ### `_merge_multipage_elements` -/

/-- The string "cont'd" (built with `Char.ofNat 39` for the apostrophe). -/
def contApostropheD : String := "cont" ++ String.singleton (Char.ofNat 39) ++ "d"

/-- `self.continuation_words` from `pdffigures2-python.py`. -/
def continuationWords : List String :=
  ["continued", "cont.", contApostropheD, "continuation"]

/-- Python's substring test `sub in s`, on character lists. -/
def charsContain (sub : List Char) : List Char → Bool
  | [] => sub.isEmpty
  | c :: rest => sub.isPrefixOf (c :: rest) || charsContain sub rest

/-- The test `any(word in fig.caption.lower() for word in
self.continuation_words)`.  Python's `str.lower` is modelled by Lean's
`lowerStr`; the continuation words are pure ASCII, on which the two
agree. -/
def hasContinuationMarker (caption : String) : Bool :=
  continuationWords.any (fun w => charsContain w.toList (lowerStr caption).toList)

/-- `fig.name.replace('continued', '').strip()`. -/
def baseName (name : String) : String :=
  pyStrip (replaceStr name "continued" "")

/-- The backward scan `for j in range(i-1, -1, -1)` looking for the first
(nearest preceding) element whose name equals `base`; called with the
current index `i`, it inspects `j = i-1, …, 0`. -/
def findBack (figs : List Figure) (base : String) : Nat → Option Nat
  | 0 => none
  | j + 1 =>
    match figs.get? j with
    | some f => if f.name = base then some j else findBack figs base j
    | none => findBack figs base j

/-- The loop body of `_merge_multipage_elements` at index `i`.  The state
carries the (mutated) figure list and the indices appended to `merged` so
far.  When a continuation is merged, the target's caption is extended in
place (`figures[j].caption += ' ' + fig.caption`) and `i` is skipped;
the source's `if i in skip_indices: continue` guard is vacuous (only the
current index is ever added to `skip_indices`), so it has no counterpart
here. -/
def mergeStep (st : List Figure × List Nat) (i : Nat) :
    List Figure × List Nat :=
  match st.1.get? i with
  | none => st
  | some fig =>
    if hasContinuationMarker fig.caption then
      match findBack st.1 (baseName fig.name) i with
      | some j =>
        match st.1.get? j with
        | none => st
        | some fj =>
          (st.1.set j { fj with caption := fj.caption ++ " " ++ fig.caption },
           st.2)
      | none => (st.1, st.2 ++ [i])
    else (st.1, st.2 ++ [i])

/-- The full loop of `_merge_multipage_elements`: final figure list and
the indices of the records appended to `merged`. -/
def mergeRun (figures : List Figure) : List Figure × List Nat :=
  (List.range figures.length).foldl mergeStep (figures, [])

/-- `_merge_multipage_elements` from `pdffigures2-python.py`.  Because the
Python `merged` list aliases the (mutated) `figures` entries, the output
reads the kept indices from the final figure list. -/
def mergeMultipageElements (figures : List Figure) : List Figure :=
  let res := mergeRun figures
  res.2.filterMap (fun i => res.1.get? i)

/-- The frame property of the merge pass for one record: all fields but
the caption are unchanged, and the original caption is a prefix of the
final one (text may only have been appended). -/
def preservedExceptCaption (orig out : Figure) : Prop :=
  out.figure_type = orig.figure_type ∧ out.name = orig.name ∧
  out.page = orig.page ∧ out.bbox = orig.bbox ∧
  out.image_data = orig.image_data ∧
  ∃ suffix, out.caption = orig.caption ++ suffix

/-- Invariant of the loop of `_merge_multipage_elements` after the
indices below `k` have been processed: the figure list keeps its length
and each entry is its original up to appended caption text; the kept
indices are strictly increasing, below `k`, and include every processed
record without a continuation marker; entries at indices `≥ k` are still
untouched. -/
def mergeInv (figs0 : List Figure) (k : Nat)
    (st : List Figure × List Nat) : Prop :=
  st.1.length = figs0.length ∧
  (∀ j a b, figs0.get? j = some a → st.1.get? j = some b →
    preservedExceptCaption a b) ∧
  st.2.Pairwise (· < ·) ∧
  (∀ i ∈ st.2, i < k) ∧
  (∀ j, k ≤ j → st.1.get? j = figs0.get? j) ∧
  (∀ i, i < k → ∀ fig, figs0.get? i = some fig →
    hasContinuationMarker fig.caption = false → i ∈ st.2)

/-! ### Output conversion and `main` (pdffigures2-python.py) -/

/-- The `bbox` object of an output record. -/
structure OutBBox where
  x1     : ℚ
  y1     : ℚ
  x2     : ℚ
  y2     : ℚ
  width  : ℚ
  height : ℚ
  deriving Repr, DecidableEq

/-- One entry of `results['figures']` in `pdffigures2-python.py`. -/
structure OutRecord where
  type       : String
  pageNumber : Nat
  name       : String
  caption    : String
  bbox       : OutBBox
  image      : Option String
  source     : String
  deriving Repr, DecidableEq

/-- The output-conversion loop body of `extract` in
`pdffigures2-python.py` (lines building `results['figures']`). -/
def figureToJson (fig : Figure) : OutRecord :=
  { type := lowerStr fig.figure_type
    pageNumber := fig.page + 1
    name := fig.name
    caption := fig.caption
    bbox := ⟨fig.bbox.x1, fig.bbox.y1, fig.bbox.x2, fig.bbox.y2,
             fig.bbox.x2 - fig.bbox.x1, fig.bbox.y2 - fig.bbox.y1⟩
    image := fig.image_data
    source := "pdffigures2-python" }

/-- The `results` dict printed by either extractor script
(`processing_time`, wall-clock time, is not modelled). -/
structure ScriptResults (α : Type) where
  success : Bool
  figures : List α
  error   : Option String
  deriving Repr, DecidableEq

/-- The `try/except` of `extract` in `pdffigures2-python.py`: the argument
is the outcome of the page-processing (`.error e` models an exception
raised while opening/processing the document, before any figure was
converted). -/
def pdffigures2ExtractResults (r : Except String (List Figure)) :
    ScriptResults OutRecord :=
  match r with
  | .ok figs => ⟨true, (mergeMultipageElements figs).map figureToJson, none⟩
  | .error e => ⟨false, [], some e⟩

/-- `main` of `pdffigures2-python.py`: it prints `json.dumps(results)` and
returns; there is no `sys.exit` call, so the process exit status (the
second component) is 0 whether or not extraction succeeded. -/
def pdffigures2Main (r : Except String (List Figure)) :
    ScriptResults OutRecord × Nat :=
  (pdffigures2ExtractResults r, 0)

/-! ### `pymupdf-extractor.py` -/

/-- One match dict built by `find_elements` of `pymupdf-extractor.py`
(`end` is a Lean keyword, so that field is called `stop`). -/
structure TextMatch where
  text  : String
  start : Nat
  stop  : Nat
  mtype : String
  y     : ℚ
  deriving Repr, DecidableEq

/-- One embedded image of a page, as consulted by the image loop of
`pymupdf-extractor.py`: pixmap dimensions, the placement rectangle from
`page.get_image_bbox(img)`, and the (externally computed) base64 PNG. -/
structure PyImg where
  pixWidth  : Nat
  pixHeight : Nat
  rect      : Rect
  dataB64   : String
  deriving Repr, DecidableEq

/-- One entry of `results['figures']` in `pymupdf-extractor.py` (image
records carry no `name` field). -/
structure PyOutRecord where
  type       : String
  pageNumber : Nat
  caption    : String
  bbox       : OutBBox
  image      : String
  source     : String
  deriving Repr, DecidableEq

/-- The image loop body of `extract` in `pymupdf-extractor.py` for one
image (`none` when the image is skipped).  `title` of the two possible
element types is spelled out. -/
def pymupdfProcessImage (tablesFound figuresFound : List TextMatch)
    (pageNum : Nat) (img : PyImg) : Option PyOutRecord :=
  if img.pixWidth < 100 ∨ img.pixHeight < 100 then none
  else
    let p : String × String :=
      match tablesFound.find? (fun m => decide (|img.rect.y1 - m.y| < 50)) with
      | some m => ("table", m.text)
      | none =>
        match figuresFound.find? (fun m => decide (|img.rect.y1 - m.y| < 50)) with
        | some m => ("figure", m.text)
        | none => ("figure", "")
    let caption :=
      if p.2 = "" then
        (if p.1 = "table" then "Table" else "Figure") ++ " on page " ++
          toString (pageNum + 1)
      else p.2
    some
      { type := p.1
        pageNumber := pageNum + 1
        caption := caption
        bbox := ⟨img.rect.x0, img.rect.y0, img.rect.x1, img.rect.y1,
                 img.rect.x1 - img.rect.x0, img.rect.y1 - img.rect.y0⟩
        image := "data:image/png;base64," ++ img.dataB64
        source := "pymupdf" }

/-- One entry of `page.get_drawings()` in `pymupdf-extractor.py`:
`items` is `none` when the key is absent, and `rect` is `none` when the
key is absent (the source then falls back to `page.rect`). -/
structure PyDrawing where
  items : Option Nat
  rect  : Option Rect
  deriving Repr, DecidableEq

/-- The drawing loop body of `extract` in `pymupdf-extractor.py` for one
drawing.  `render2x` abstracts cropping the 2x page pixmap (the crop uses
doubled coordinates; the emitted bbox does not). -/
def pymupdfProcessDrawing (render2x : Rect → String) (pageRect : Rect)
    (pageNum : Nat) (d : PyDrawing) : Option PyOutRecord :=
  match d.items with
  | none => none
  | some n =>
    if n > 10 then
      let rect := d.rect.getD pageRect
      if rect.width < 100 ∨ rect.height < 100 then none
      else
        some
          { type := "figure"
            pageNumber := pageNum + 1
            caption := "Diagram/Chart on page " ++ toString (pageNum + 1)
            bbox := ⟨rect.x0, rect.y0, rect.x1, rect.y1, rect.width,
                     rect.height⟩
            image := "data:image/png;base64," ++ render2x rect
            source := "pymupdf_drawing" }
    else none

/-- The `try/except` of `extract` in `pymupdf-extractor.py`. -/
def pymupdfExtractResults (r : Except String (List PyOutRecord)) :
    ScriptResults PyOutRecord :=
  match r with
  | .ok recs => ⟨true, recs, none⟩
  | .error e => ⟨false, [], some e⟩

/-- `main` of `pymupdf-extractor.py`: prints the results JSON and returns
without `sys.exit`, so the exit status is 0 in both cases. -/
def pymupdfMain (r : Except String (List PyOutRecord)) :
    ScriptResults PyOutRecord × Nat :=
  (pymupdfExtractResults r, 0)

/-! ### `pdf-fetcher-python-fallback.py` -/

/-- The dict returned by a successful per-source fetch function. -/
structure FetchResult where
  success : Bool
  pdf     : String
  source  : String
  deriving Repr, DecidableEq

/-- Outcome of calling one fetch function on the DOI: `.error ()` models a
raised exception (caught by the loop's `try/except`), `.ok none` a `None`
(or falsy) return, `.ok (some r)` a returned dict. -/
abbrev SourceOutcome := Except Unit (Option FetchResult)

/-- The JSON object printed to stdout by `main` of
`pdf-fetcher-python-fallback.py`. -/
structure FetchOutput where
  success     : Bool
  source      : Option String
  pdf_base64  : Option String
  error       : Option String
  deriving Repr, DecidableEq

/-- The failure JSON printed when every source has failed. -/
def fetchFailOutput : FetchOutput :=
  ⟨false, none, none, some "All Python fallback sources failed"⟩

/-- The success JSON printed for the first successful source (`b64`
abstracts `base64.b64encode`). -/
def fetchSuccessOutput (b64 : String → String) (r : FetchResult) :
    FetchOutput :=
  ⟨true, some r.source, some (b64 r.pdf), none⟩

/-- The source loop of `main` in `pdf-fetcher-python-fallback.py` over the
per-source outcomes, returning the printed JSON and the exit code:
exceptions and unsuccessful results fall through silently; the first
success prints and exits 0; exhaustion prints the failure JSON and exits
1. -/
def fetcherLoop (b64 : String → String) :
    List SourceOutcome → FetchOutput × Nat
  | [] => (fetchFailOutput, 1)
  | o :: rest =>
    match o with
    | .error _ => fetcherLoop b64 rest
    | .ok none => fetcherLoop b64 rest
    | .ok (some r) =>
      if r.success then (fetchSuccessOutput b64 r, 0)
      else fetcherLoop b64 rest

/-- The fixed source list of `main` (names as in the `sources` list). -/
def fetcherSources : List String :=
  ["Unpaywall", "LibKey Resolver", "PubMed Central", "PMC Direct API",
   "Europe PMC", "bioRxiv/medRxiv", "DOI.org redirect",
   "PMC HTML Full Text", "Universal Journal HTML"]

/-- A per-source outcome that falls through in the loop of
`pdf-fetcher-python-fallback.py`: a raised exception, a falsy result, or
a dict without truthy `success`. -/
def sourceFailed (o : SourceOutcome) : Prop :=
  match o with
  | .error _ => True
  | .ok none => True
  | .ok (some r) => r.success = false

/-- `main` of `pdf-fetcher-python-fallback.py` for a given DOI:
`fetchOf` gives the outcome of each named source's fetch function on that
DOI; the sources are tried in the fixed order of `fetcherSources`. -/
def pdfFetcherMain (b64 : String → String)
    (fetchOf : String → SourceOutcome) : FetchOutput × Nat :=
  fetcherLoop b64 (fetcherSources.map fetchOf)

/-! ### `universal-text-sanitizer.py`

Text is modelled as a list of Unicode code points (`List Nat`).  The
external library calls of steps 1–3 (`ftfy.fix_text`,
`unicodedata.normalize('NFC', ·)`, `html.unescape`) and the
Unicode-table-driven character classes of the regex engine (`\s`, `\b`)
are abstracted as parameters collected in `SanitizeEnv`; every
transformation the script itself spells out is embedded concretely. -/

/-- Code points of a string literal. -/
def str (s : String) : List Nat := s.toList.map Char.toNat

/-- `text.replace(old, new)` for a single-code-point `old`. -/
def replaceCodepoint (old : Nat) (new : List Nat) (t : List Nat) :
    List Nat :=
  t.flatMap (fun c => if c = old then new else [c])

/-- `self.replacements` from `UniversalTextSanitizer.__init__`, in dict
insertion order (`' '` and `'\xa0'` are the same dict key, hence a
single entry). -/
def sanitizerReplacements : List (Nat × List Nat) :=
  [ (0x202f, str " "), (0x2009, str " "), (0x200a, str " "),
    (0x2008, str " "), (0x2007, str " "), (0x2006, str " "),
    (0x2005, str " "), (0x2004, str " "), (0x2003, str " "),
    (0x2002, str " "), (0xa0, str " "),
    (0x200b, []), (0x200c, []), (0x200d, []), (0xfeff, []), (0x2060, []),
    (0x2010, str "-"), (0x2011, str "-"), (0x2012, str "-"),
    (0x2013, str "-"), (0x2014, str "--"), (0x2212, str "-"),
    (0x2018, [39]), (0x2019, [39]), (0x201a, [39]), (0x201b, [39]),
    (0x201c, str "\""), (0x201d, str "\""), (0x201e, str "\""),
    (0x201f, str "\""), (0x301d, str "\""), (0x301e, str "\""),
    (0x2264, str "<="), (0x2265, str ">="), (0x2260, str "!="),
    (0xb1, str "+/-"), (0xd7, str "x"), (0xf7, str "/"),
    (0x221e, str "infinity"), (0x2248, str "~"),
    (0x2026, str "..."),
    (0x2022, str "*"), (0x2023, str ">"), (0x2043, str "-"),
    (0x204c, str "!!"), (0x2047, str "??"),
    (0xbd, str "1/2"), (0x2153, str "1/3"), (0x2154, str "2/3"),
    (0xbc, str "1/4"), (0xbe, str "3/4"), (0x215b, str "1/8"),
    (0x215c, str "3/8"), (0x215d, str "5/8"), (0x215e, str "7/8"),
    (0x2190, str "<-"), (0x2192, str "->"), (0x2194, str "<->"),
    (0x21d2, str "=>"),
    (0xa9, str "(c)"), (0xae, str "(R)"), (0x2122, str "(TM)"),
    (0xb0, str " degrees"), (0x3bc, str "u"), (0x3b1, str "alpha"),
    (0x3b2, str "beta"), (0x394, str "Delta") ]

/-- The `ligatures` dict of step 6. -/
def sanitizerLigatures : List (Nat × List Nat) :=
  [ (0xfb00, str "ff"), (0xfb01, str "fi"), (0xfb02, str "fl"),
    (0xfb03, str "ffi"), (0xfb04, str "ffl"), (0xfb05, str "st"),
    (0xfb06, str "st"), (0x153, str "oe"), (0x152, str "OE"),
    (0xe6, str "ae"), (0xc6, str "AE") ]

/-- Membership in the control-character class removed by step 5:
`[\x00-\x08\x0B\x0C\x0E-\x1F\x7F-\x9F]`. -/
def isBannedControl (c : Nat) : Bool :=
  (c ≤ 8) || (c = 0xB) || (c = 0xC) || (0xE ≤ c && c ≤ 0x1F) ||
    (0x7F ≤ c && c ≤ 0x9F)

/-- `re.sub(r'\b<target>\b', <repl>, text)` for a single word-character
target (the OCR fixes of step 7): a target character is replaced when its
neighbours (against the original text) are not word characters.  `w` is
the regex engine's word-character class. -/
def subIsolated (w : Nat → Bool) (target repl : Nat) :
    Option Nat → List Nat → List Nat
  | _, [] => []
  | prev, c :: rest =>
    let prevWord := match prev with | none => false | some p => w p
    let nextWord := match rest with | [] => false | n :: _ => w n
    if c = target && !prevWord && !nextWord then
      repl :: subIsolated w target repl (some c) rest
    else
      c :: subIsolated w target repl (some c) rest

/-- The `ocr_fixes` of step 7 (applied when the context is not
`'title'`). -/
def ocrFixes (w : Nat → Bool) (t : List Nat) : List Nat :=
  let t := subIsolated w 108 49 none t
  let t := subIsolated w 79 48 none t
  let t := replaceCodepoint 0xfb01 (str "fi") t
  replaceCodepoint 0xfb02 (str "fl") t

/-- Squeeze runs of consecutive spaces to a single space. -/
def squeezeSpaces : List Nat → List Nat
  | [] => []
  | [c] => [c]
  | a :: b :: rest =>
    if a = 32 && b = 32 then squeezeSpaces (b :: rest)
    else a :: squeezeSpaces (b :: rest)

/-- `re.sub(r'\s+', ' ', text)`: every maximal run of whitespace becomes
one space.  `sp` is the regex engine's whitespace class (which contains
the space character itself). -/
def collapseWhitespace (sp : Nat → Bool) (t : List Nat) : List Nat :=
  squeezeSpaces (t.map (fun c => if sp c then 32 else c))

/-- `text.strip()`. -/
def stripWith (sp : Nat → Bool) (t : List Nat) : List Nat :=
  ((t.dropWhile (fun c => sp c)).reverse.dropWhile (fun c => sp c)).reverse

/-- The character test of step 9:
`(32 <= ord <= 126) or (160 <= ord <= 255) or char in '\n\r\t'`. -/
def step9Allowed (c : Nat) : Bool :=
  (32 ≤ c && c ≤ 126) || (160 ≤ c && c ≤ 255) || c = 10 || c = 13 || c = 9

/-- The external ingredients of `sanitize`: steps 1–3 and the regex
engine's Unicode character classes. -/
structure SanitizeEnv where
  fixText    : List Nat → List Nat
  nfc        : List Nat → List Nat
  unescape   : List Nat → List Nat
  isSpace    : Nat → Bool
  isWordChar : Nat → Bool

/-- Steps 1–8 of `UniversalTextSanitizer.sanitize` on a non-empty text. -/
def sanitizeCore (env : SanitizeEnv) (ctx : String) (t0 : List Nat) :
    List Nat :=
  let t := env.fixText t0
  let t := env.nfc t
  let t := env.unescape t
  let t := sanitizerReplacements.foldl
    (fun s p => replaceCodepoint p.1 p.2 s) t
  let t := t.filter (fun c => !isBannedControl c)
  let t := sanitizerLigatures.foldl
    (fun s p => replaceCodepoint p.1 p.2 s) t
  let t := if ctx ≠ "title" then ocrFixes env.isWordChar t else t
  stripWith env.isSpace (collapseWhitespace env.isSpace t)

/-- `UniversalTextSanitizer.sanitize`.  The input `none` models Python's
`None` (the `if not text` guard covers both `None` and the empty string).
Step 10 (`text.encode('utf-8').decode('utf-8')`) does not rebind `text`
on the success path, so it is a no-op here. -/
def sanitize (env : SanitizeEnv) (ctx : String) (text : Option (List Nat)) :
    List Nat :=
  match text with
  | none => []
  | some t0 =>
    if t0 = [] then []
    else
      let t := sanitizeCore env ctx t0
      if ctx = "title" ∨ ctx = "content" then
        t.map (fun c => if step9Allowed c then c else 32)
      else t

/-- A concrete `SanitizeEnv` used for evaluating `sanitize` on sample
inputs: identity external fixers, ASCII whitespace, ASCII word
characters. -/
def sampleEnv : SanitizeEnv :=
  { fixText := id
    nfc := id
    unescape := id
    isSpace := fun c => c == 32 || c == 9 || c == 10 || c == 13
    isWordChar := fun c =>
      (48 ≤ c && c ≤ 57) || (65 ≤ c && c ≤ 90) || (97 ≤ c && c ≤ 122) ||
        c == 95 }

/-! ## Claims -/

/-- C1: for every raster image passing the size thresholds of
`_extract_images`, the associated caption is the qualifying candidate
(start x within 100 units, vertical gap strictly below 100) of minimum
vertical gap, earliest-scanned winning ties (`claimSelect` is that
selection rule, and at most one caption is returned); if no candidate
qualifies, the image is emitted as type `Figure` with empty caption and
name `Figure <image index + 1>`. -/
theorem claim_C1 :
    (∀ (figBBox : BoundingBox) (captions : List Caption),
      findNearestCaption figBBox captions = claimSelect figBBox captions) ∧
    (∀ (fullCap : Caption → String) (captions : List Caption)
      (pageNum i : Nat) (img : ImageInfo) (rest : List ImageInfo)
      (rect : BoundingBox) (rs : List BoundingBox),
      img.rects = rect :: rs →
      ¬ rect.area < 10000 →
      ¬ (img.pixWidth < 100 ∨ img.pixHeight < 100) →
      findNearestCaption rect captions = none →
      extractImagesAux fullCap captions pageNum i (img :: rest) =
        Figure.mk "Figure" ("Figure " ++ toString (i + 1)) "" pageNum rect
          (some ("data:image/png;base64," ++ img.dataB64)) ::
          extractImagesAux fullCap captions pageNum (i + 1) rest) ∧
    (∀ (fullCap : Caption → String) (captions : List Caption)
      (pageNum i : Nat) (img : ImageInfo) (rest : List ImageInfo)
      (rect : BoundingBox) (rs : List BoundingBox) (ci : Caption),
      img.rects = rect :: rs →
      ¬ rect.area < 10000 →
      ¬ (img.pixWidth < 100 ∨ img.pixHeight < 100) →
      findNearestCaption rect captions = some ci →
      extractImagesAux fullCap captions pageNum i (img :: rest) =
        Figure.mk ci.ctype (pyStrip ci.cmatch) (fullCap ci) pageNum rect
          (some ("data:image/png;base64," ++ img.dataB64)) ::
          extractImagesAux fullCap captions pageNum (i + 1) rest) := by
  refine ⟨findNearestCaption_eq_claimSelect, ?_, ?_⟩
  · intro fullCap captions pageNum i img rest rect rs hrects harea hpix hfind
    obtain ⟨rects, pw, ph, data⟩ := img
    simp only [ImageInfo.rects] at hrects
    subst hrects
    simp [extractImagesAux, harea, hpix, hfind]
  · intro fullCap captions pageNum i img rest rect rs ci hrects harea hpix hfind
    obtain ⟨rects, pw, ph, data⟩ := img
    simp only [ImageInfo.rects] at hrects
    subst hrects
    simp [extractImagesAux, harea, hpix, hfind]

/-- Witness for C1 at a concrete input: a 200×200-unit image with a
150×150 pixmap and no caption candidates is emitted as an uncaptioned
`Figure 1`. -/
theorem claim_C1_witness :
    extractImagesAux (fun _ => "") [] 0 0
        [⟨[⟨0, 0, 200, 200⟩], 150, 150, "IMG"⟩] =
      [Figure.mk "Figure" "Figure 1" "" 0 ⟨0, 0, 200, 200⟩
        (some "data:image/png;base64,IMG")] := by
  have h := claim_C1.2.1 (fun _ => "") [] 0 0
    ⟨[⟨0, 0, 200, 200⟩], 150, 150, "IMG"⟩ [] ⟨0, 0, 200, 200⟩ []
    rfl (by norm_num [BoundingBox.area]) (by decide) rfl
  simpa using h

/-- C3: `_extract_images` of `pdffigures2-python.py` emits no record for
an image whose placement rectangle has area below 10000 square units, nor
for one whose pixmap is narrower or shorter than 100 pixels; the pixmap
exclusion also holds in `pymupdf-extractor.py`. -/
theorem claim_C3 :
    (∀ (fullCap : Caption → String) (captions : List Caption)
      (pageNum i : Nat) (img : ImageInfo) (rest : List ImageInfo)
      (rect : BoundingBox) (rs : List BoundingBox),
      img.rects = rect :: rs →
      rect.area < 10000 →
      extractImagesAux fullCap captions pageNum i (img :: rest) =
        extractImagesAux fullCap captions pageNum (i + 1) rest) ∧
    (∀ (fullCap : Caption → String) (captions : List Caption)
      (pageNum i : Nat) (img : ImageInfo) (rest : List ImageInfo)
      (rect : BoundingBox) (rs : List BoundingBox),
      img.rects = rect :: rs →
      (img.pixWidth < 100 ∨ img.pixHeight < 100) →
      extractImagesAux fullCap captions pageNum i (img :: rest) =
        extractImagesAux fullCap captions pageNum (i + 1) rest) ∧
    (∀ (tablesFound figuresFound : List TextMatch) (pageNum : Nat)
      (img : PyImg),
      (img.pixWidth < 100 ∨ img.pixHeight < 100) →
      pymupdfProcessImage tablesFound figuresFound pageNum img = none) := by
  refine ⟨?_, ?_, ?_⟩
  · intro fullCap captions pageNum i img rest rect rs hrects harea
    obtain ⟨rects, pw, ph, data⟩ := img
    simp only [ImageInfo.rects] at hrects
    subst hrects
    simp [extractImagesAux, harea]
  · intro fullCap captions pageNum i img rest rect rs hrects hpix
    obtain ⟨rects, pw, ph, data⟩ := img
    simp only [ImageInfo.rects] at hrects
    subst hrects
    by_cases harea : rect.area < 10000
    · simp [extractImagesAux, harea]
    · simp [extractImagesAux, harea, hpix]
  · intro tablesFound figuresFound pageNum img hpix
    simp [pymupdfProcessImage, hpix]

/-- Witness for C3 at concrete inputs: a 50×50-unit image is skipped even
with a caption candidate right next to it, and a 50-pixel-wide pymupdf
image is skipped. -/
theorem claim_C3_witness :
    extractImagesAux (fun _ => "cap")
        [⟨"Figure", "Figure 1: x", ⟨0, 55, 50, 65⟩, "Figure 1"⟩] 0 0
        [⟨[⟨0, 0, 50, 50⟩], 500, 500, "I"⟩] = [] ∧
    pymupdfProcessImage [] [] 0 ⟨50, 200, ⟨0, 0, 300, 300⟩, "D"⟩ = none := by
  constructor
  · have h := claim_C3.1 (fun _ => "cap")
      [⟨"Figure", "Figure 1: x", ⟨0, 55, 50, 65⟩, "Figure 1"⟩] 0 0
      ⟨[⟨0, 0, 50, 50⟩], 500, 500, "I"⟩ [] ⟨0, 0, 50, 50⟩ []
      rfl (by norm_num [BoundingBox.area])
    simpa using h
  · exact claim_C3.2.2 [] [] 0 ⟨50, 200, ⟨0, 0, 300, 300⟩, "D"⟩ (by decide)

/-- C4 counterexample: on an extraction exception, both extractor scripts
print a `success = false` JSON object but the process exit status is 0,
not 1 (neither `main` calls `sys.exit`). -/
theorem claim_C4_counterexample :
    pdffigures2Main (Except.error "boom") = (⟨false, [], some "boom"⟩, 0) ∧
    pymupdfMain (Except.error "boom") = (⟨false, [], some "boom"⟩, 0) ∧
    (0 : Nat) ≠ 1 := by
  exact ⟨rfl, rfl, by decide⟩

/-- C4 (amended): for both extractor scripts, an exception during
extraction yields a printed JSON object with `success = false` and the
error string, and extraction success yields `success = true` with the
figures payload; the process exit status is 0 in both cases. -/
theorem claim_C4 :
    (∀ e, pdffigures2Main (Except.error e) = (⟨false, [], some e⟩, 0)) ∧
    (∀ figs, pdffigures2Main (Except.ok figs) =
      (⟨true, (mergeMultipageElements figs).map figureToJson, none⟩, 0)) ∧
    (∀ e, pymupdfMain (Except.error e) = (⟨false, [], some e⟩, 0)) ∧
    (∀ recs, pymupdfMain (Except.ok recs) = (⟨true, recs, none⟩, 0)) := by
  exact ⟨fun _ => rfl, fun _ => rfl, fun _ => rfl, fun _ => rfl⟩

/-- C5 counterexample: with a caption of bbox `(0, 0, 100, 10)` and one
collected text block of bbox `(0, 20, 100, 100)`, the emitted table
record's bounding box is `(0, 0, 100, 100)` — its top edge is the
caption's `y1`, not the collected blocks' union bounding box
`(0, 20, 100, 100)`. -/
theorem claim_C5_counterexample :
    tableBlocks [⟨0, ⟨0, 20, 100, 100⟩⟩] (⟨0, 0, 100, 10⟩ : BoundingBox) =
      [⟨0, ⟨0, 20, 100, 100⟩⟩] ∧
    extractTables (fun _ => "R") (fun _ => "C") [⟨0, ⟨0, 20, 100, 100⟩⟩]
        [⟨"Table", "Table 1: stuff", ⟨0, 0, 100, 10⟩, "Table 1"⟩] 0 =
      [Figure.mk "Table" "Table 1" "C" 0 ⟨0, 0, 100, 100⟩
        (some "data:image/png;base64,R")] ∧
    blocksUnionBBox ⟨0, ⟨0, 20, 100, 100⟩⟩ [] = ⟨0, 20, 100, 100⟩ ∧
    (⟨0, 0, 100, 100⟩ : BoundingBox) ≠ ⟨0, 20, 100, 100⟩ := by
  have hTB : tableBlocks [⟨0, ⟨0, 20, 100, 100⟩⟩]
      (⟨0, 0, 100, 10⟩ : BoundingBox) = [⟨0, ⟨0, 20, 100, 100⟩⟩] := by
    norm_num [tableBlocks, bboxInRegion, tableSearchBBox, List.filter]
  have hce : extractTableForCaption (fun _ => "R") (fun _ => "C")
      [⟨0, ⟨0, 20, 100, 100⟩⟩] 0
      ⟨"Table", "Table 1: stuff", ⟨0, 0, 100, 10⟩, "Table 1"⟩ =
      some (Figure.mk "Table" "Table 1" "C" 0 ⟨0, 0, 100, 100⟩
        (some "data:image/png;base64,R")) := by
    simp only [extractTableForCaption, hTB]
    rfl
  refine ⟨hTB, ?_, by simp [blocksUnionBBox], by decide⟩
  simp [extractTables, hce]

/-- C5 (amended): `_extract_tables` collects exactly the text blocks that
lie entirely within the search rectangle extending 50 units left of the
caption's x1, 200 units right of its x2, and 500 units below its bottom
edge; with no collected block no record is emitted; the emitted record's
bounding box takes its left, right and bottom edges from the union
bounding box of the collected blocks but its top edge is the caption
bounding box's `y1` (the union's top edge is computed but unused). -/
theorem claim_C5 :
    (∀ render fullCap blocks captions pageNum,
      extractTables render fullCap blocks captions pageNum =
        (captions.filter (fun c => c.ctype == "Table")).filterMap
          (extractTableForCaption render fullCap blocks pageNum)) ∧
    (∀ blocks (cb : BoundingBox),
      tableBlocks blocks cb = blocks.filter (fun b =>
        b.btype == 0 &&
          bboxInRegion b.bbox ⟨cb.x1 - 50, cb.y2, cb.x2 + 200, cb.y2 + 500⟩)) ∧
    (∀ render fullCap blocks pageNum ci,
      tableBlocks blocks ci.bbox = [] →
      extractTableForCaption render fullCap blocks pageNum ci = none) ∧
    (∀ render fullCap blocks pageNum ci b0 bs,
      tableBlocks blocks ci.bbox = b0 :: bs →
      extractTableForCaption render fullCap blocks pageNum ci =
        some (Figure.mk "Table" (pyStrip ci.cmatch) (fullCap ci) pageNum
          ⟨(blocksUnionBBox b0 bs).x1, ci.bbox.y1, (blocksUnionBBox b0 bs).x2,
            (blocksUnionBBox b0 bs).y2⟩
          (some ("data:image/png;base64," ++ render
            ⟨(blocksUnionBBox b0 bs).x1, ci.bbox.y1,
              (blocksUnionBBox b0 bs).x2, (blocksUnionBBox b0 bs).y2⟩)))) := by
  refine ⟨fun _ _ _ _ _ => rfl, fun _ _ => rfl, ?_, ?_⟩
  · intro render fullCap blocks pageNum ci h
    simp only [extractTableForCaption, h]
  · intro render fullCap blocks pageNum ci b0 bs h
    simp only [extractTableForCaption, h, blocksUnionBBox]

/-- Witness for C5 (amended) at a concrete input: one collected block
below the caption produces a record whose bbox mixes the caption's top
edge with the block union's other edges. -/
theorem claim_C5_witness :
    extractTableForCaption (fun _ => "R") (fun _ => "C")
        [⟨0, ⟨0, 20, 100, 100⟩⟩] 0
        ⟨"Table", "Table 1: stuff", ⟨0, 0, 100, 10⟩, "Table 1"⟩ =
      some (Figure.mk "Table" "Table 1" "C" 0 ⟨0, 0, 100, 100⟩
        (some "data:image/png;base64,R")) := by
  have h := claim_C5.2.2.2 (fun _ => "R") (fun _ => "C")
    [⟨0, ⟨0, 20, 100, 100⟩⟩] 0
    ⟨"Table", "Table 1: stuff", ⟨0, 0, 100, 10⟩, "Table 1"⟩
    ⟨0, ⟨0, 20, 100, 100⟩⟩ []
    (by norm_num [tableBlocks, bboxInRegion, tableSearchBBox, List.filter])
  rw [h]
  rfl

/-- C7: the fetcher tries the fixed source list in order; per-source
failures fall through silently; the first success prints the success JSON
and exits 0 (later sources are never consulted: the suffix `post` is
arbitrary); only when every source fails does it print the fixed failure
JSON and exit 1. -/
theorem claim_C7 :
    (∀ b64 fetchOf, pdfFetcherMain b64 fetchOf =
      fetcherLoop b64 (fetcherSources.map fetchOf)) ∧
    (∀ (b64 : String → String) (pre : List SourceOutcome) (r : FetchResult)
      (post : List SourceOutcome),
      (∀ o ∈ pre, sourceFailed o) → r.success = true →
      fetcherLoop b64 (pre ++ Except.ok (some r) :: post) =
        (fetchSuccessOutput b64 r, 0)) ∧
    (∀ (b64 : String → String) (l : List SourceOutcome),
      (∀ o ∈ l, sourceFailed o) → fetcherLoop b64 l = (fetchFailOutput, 1)) := by
  refine ⟨fun _ _ => rfl, ?_, ?_⟩
  · intro b64 pre r post hpre hr
    induction pre with
    | nil => simp [fetcherLoop, hr]
    | cons o rest ih =>
        have ho : sourceFailed o := hpre o (by simp)
        have hrest : ∀ o ∈ rest, sourceFailed o := fun o ho' =>
          hpre o (by simp [ho'])
        match o with
        | .error u => simpa [fetcherLoop] using ih hrest
        | .ok none => simpa [fetcherLoop] using ih hrest
        | .ok (some s) =>
            have hs : s.success = false := ho
            simpa [fetcherLoop, hs] using ih hrest
  · intro b64 l hl
    induction l with
    | nil => rfl
    | cons o rest ih =>
        have ho : sourceFailed o := hl o (by simp)
        have hrest : ∀ o ∈ rest, sourceFailed o := fun o ho' =>
          hl o (by simp [ho'])
        match o with
        | .error u => simpa [fetcherLoop] using ih hrest
        | .ok none => simpa [fetcherLoop] using ih hrest
        | .ok (some s) =>
            have hs : s.success = false := ho
            simpa [fetcherLoop, hs] using ih hrest

/-- Witness for C7 at concrete inputs: two failing sources followed by a
success (with a further source never reached), and a fully failing
list. -/
theorem claim_C7_witness :
    fetcherLoop id
        [Except.error (), Except.ok none,
         Except.ok (some ⟨true, "PDFBYTES", "PubMed Central"⟩),
         Except.ok (some ⟨true, "OTHER", "Europe PMC"⟩)] =
      (⟨true, some "PubMed Central", some "PDFBYTES", none⟩, 0) ∧
    fetcherLoop id [Except.error (), Except.ok (some ⟨false, "X", "S"⟩)] =
      (fetchFailOutput, 1) := by
  constructor
  · have h := claim_C7.2.1 id [Except.error (), Except.ok none]
      ⟨true, "PDFBYTES", "PubMed Central"⟩
      [Except.ok (some ⟨true, "OTHER", "Europe PMC"⟩)]
      (by intro o ho; fin_cases ho <;> trivial) rfl
    simpa [fetchSuccessOutput] using h
  · have h := claim_C7.2.2 id
      [Except.error (), Except.ok (some ⟨false, "X", "S"⟩)]
      (by intro o ho; fin_cases ho <;> trivial)
    exact h

/-- C8: every emitted record's bbox carries the source geometry
unscaled (the 2x render zoom only affects the rendered crop), with
`width = x2 - x1` and `height = y2 - y1`; stated for the three emission
sites: the pdffigures2 output conversion, the pymupdf image records and
the pymupdf drawing records. -/
theorem claim_C8 :
    (∀ fig : Figure,
      (figureToJson fig).bbox.x1 = fig.bbox.x1 ∧
      (figureToJson fig).bbox.y1 = fig.bbox.y1 ∧
      (figureToJson fig).bbox.x2 = fig.bbox.x2 ∧
      (figureToJson fig).bbox.y2 = fig.bbox.y2 ∧
      (figureToJson fig).bbox.width =
        (figureToJson fig).bbox.x2 - (figureToJson fig).bbox.x1 ∧
      (figureToJson fig).bbox.height =
        (figureToJson fig).bbox.y2 - (figureToJson fig).bbox.y1) ∧
    (∀ (tf ff : List TextMatch) (pn : Nat) (img : PyImg) (r : PyOutRecord),
      pymupdfProcessImage tf ff pn img = some r →
      r.bbox.x1 = img.rect.x0 ∧ r.bbox.y1 = img.rect.y0 ∧
      r.bbox.x2 = img.rect.x1 ∧ r.bbox.y2 = img.rect.y1 ∧
      r.bbox.width = r.bbox.x2 - r.bbox.x1 ∧
      r.bbox.height = r.bbox.y2 - r.bbox.y1) ∧
    (∀ (render2x : Rect → String) (pageRect : Rect) (pn : Nat)
      (d : PyDrawing) (r : PyOutRecord),
      pymupdfProcessDrawing render2x pageRect pn d = some r →
      r.bbox.x1 = (d.rect.getD pageRect).x0 ∧
      r.bbox.y1 = (d.rect.getD pageRect).y0 ∧
      r.bbox.x2 = (d.rect.getD pageRect).x1 ∧
      r.bbox.y2 = (d.rect.getD pageRect).y1 ∧
      r.bbox.width = r.bbox.x2 - r.bbox.x1 ∧
      r.bbox.height = r.bbox.y2 - r.bbox.y1) := by
  refine ⟨?_, ?_, ?_⟩
  · intro fig
    exact ⟨rfl, rfl, rfl, rfl, rfl, rfl⟩
  · intro tf ff pn img r h
    by_cases hpix : img.pixWidth < 100 ∨ img.pixHeight < 100
    · rw [pymupdfProcessImage, if_pos hpix] at h
      exact absurd h (by simp)
    · rw [pymupdfProcessImage, if_neg hpix] at h
      obtain rfl := (Option.some.inj h).symm
      exact ⟨rfl, rfl, rfl, rfl, rfl, rfl⟩
  · intro render2x pageRect pn d r h
    obtain ⟨items, rect⟩ := d
    cases items with
    | none => exact absurd h (by simp [pymupdfProcessDrawing])
    | some n =>
      by_cases hn : n > 10
      · rw [pymupdfProcessDrawing] at h
        simp only [if_pos hn] at h
        by_cases hsz : (rect.getD pageRect).width < 100 ∨
            (rect.getD pageRect).height < 100
        · rw [if_pos hsz] at h
          exact absurd h (by simp)
        · rw [if_neg hsz] at h
          obtain rfl := (Option.some.inj h).symm
          exact ⟨rfl, rfl, rfl, rfl, rfl, rfl⟩
      · rw [pymupdfProcessDrawing] at h
        simp only [if_neg hn] at h
        exact absurd h (by simp)

/-- Witness for C8 at a concrete input: a 200×200-pixel pymupdf image
placed at rectangle `(1, 2, 11, 22)` is emitted with exactly those
coordinates and `width = 10`, `height = 20`. -/
theorem claim_C8_witness :
    pymupdfProcessImage [] [] 0 ⟨200, 200, ⟨1, 2, 11, 22⟩, "D"⟩ =
      some ⟨"figure", 1, "Figure on page 1", ⟨1, 2, 11, 22, 10, 20⟩,
        "data:image/png;base64,D", "pymupdf"⟩ ∧
    ((⟨1, 2, 11, 22, 10, 20⟩ : OutBBox).width =
      (⟨1, 2, 11, 22, 10, 20⟩ : OutBBox).x2 -
        (⟨1, 2, 11, 22, 10, 20⟩ : OutBBox).x1) ∧
    ((⟨1, 2, 11, 22, 10, 20⟩ : OutBBox).height =
      (⟨1, 2, 11, 22, 10, 20⟩ : OutBBox).y2 -
        (⟨1, 2, 11, 22, 10, 20⟩ : OutBBox).y1) := by
  have h : pymupdfProcessImage [] [] 0 ⟨200, 200, ⟨1, 2, 11, 22⟩, "D"⟩ =
      some ⟨"figure", 1, "Figure on page 1", ⟨1, 2, 11, 22, 10, 20⟩,
        "data:image/png;base64,D", "pymupdf"⟩ := by
    norm_num [pymupdfProcessImage]
    exact ⟨rfl, rfl⟩
  have h2 := claim_C8.2.1 [] [] 0 ⟨200, 200, ⟨1, 2, 11, 22⟩, "D"⟩ _ h
  exact ⟨h, h2.2.2.2.2.1, h2.2.2.2.2.2⟩

lemma sanitize_some_ne (env : SanitizeEnv) (ctx : String) (t0 : List Nat)
    (h0 : ¬ t0 = []) :
    sanitize env ctx (some t0) =
      if ctx = "title" ∨ ctx = "content" then
        (sanitizeCore env ctx t0).map
          (fun c => if step9Allowed c then c else 32)
      else sanitizeCore env ctx t0 := by
  simp [sanitize, h0]

/-- C10: for context `title` or `content`, every code point of the
sanitized text lies in [32,126] or [160,255] or is newline, carriage
return or tab, and empty or `None` input yields the empty string. -/
theorem claim_C10 :
    (∀ (env : SanitizeEnv) (ctx : String) (text : Option (List Nat)),
      ctx = "title" ∨ ctx = "content" →
      ∀ c ∈ sanitize env ctx text,
        (32 ≤ c ∧ c ≤ 126) ∨ (160 ≤ c ∧ c ≤ 255) ∨ c = 10 ∨ c = 13 ∨ c = 9) ∧
    (∀ env ctx, sanitize env ctx none = [] ∧ sanitize env ctx (some []) = []) := by
  constructor
  · intro env ctx text hctx c hc
    match text with
    | none => simp [sanitize] at hc
    | some t0 =>
      by_cases h0 : t0 = []
      · rw [h0] at hc
        simp [sanitize] at hc
      · rw [sanitize_some_ne env ctx t0 h0, if_pos hctx] at hc
        obtain ⟨x, _, hfx⟩ := List.mem_map.mp hc
        by_cases hstep : step9Allowed x = true
        · rw [if_pos hstep] at hfx
          subst hfx
          have h9 := hstep
          unfold step9Allowed at h9
          simp only [Bool.or_eq_true, Bool.and_eq_true, decide_eq_true_eq,
            Nat.beq_eq_true_eq] at h9
          rcases h9 with ((((h | h) | h) | h) | h)
          · exact Or.inl h
          · exact Or.inr (Or.inl h)
          · exact Or.inr (Or.inr (Or.inl h))
          · exact Or.inr (Or.inr (Or.inr (Or.inl h)))
          · exact Or.inr (Or.inr (Or.inr (Or.inr h)))
        · rw [if_neg hstep] at hfx
          subst hfx
          left
          exact ⟨le_refl 32, by norm_num⟩
  · exact fun env ctx => ⟨rfl, rfl⟩

set_option maxRecDepth 4000 in
/-- Witness for C10 at a concrete input: sanitizing `[65, 8364]`
(`'A'` and the euro sign) in context `content` with identity external
fixers yields `[65, 32]`, and the code point 32 found in the output
satisfies the allowed ranges. -/
theorem claim_C10_witness :
    sanitize sampleEnv "content" (some [65, 8364]) = [65, 32] ∧
    ((32 ≤ 32 ∧ 32 ≤ 126) ∨ (160 ≤ 32 ∧ 32 ≤ 255) ∨ 32 = 10 ∨ 32 = 13 ∨
      32 = 9) := by
  refine ⟨by decide, ?_⟩
  exact claim_C10.1 sampleEnv "content" (some [65, 8364]) (Or.inr rfl) 32
    (by decide)

lemma foldl_pres {α β : Type _} (f : β → α → β) (P : β → Prop)
    (hstep : ∀ b a, P b → P (f b a)) :
    ∀ (l : List α) (b : β), P b → P (l.foldl f b) := by
  intro l
  induction l with
  | nil => exact fun b h => h
  | cons a rest ih => exact fun b h => ih _ (hstep b a h)

lemma groupInnerStep_pres (drawings : List Drawing) (i : Nat) (r1 : Rect)
    (d0 : Drawing) (st : List Drawing × List Nat) (j : Nat)
    (hb : ∃ tail, st.1 = d0 :: tail ∧ ∀ d ∈ tail, closeToSeed r1 d) :
    ∃ tail, (groupInnerStep drawings i r1 st j).1 = d0 :: tail ∧
      ∀ d ∈ tail, closeToSeed r1 d := by
  obtain ⟨tail, h1, h2⟩ := hb
  unfold groupInnerStep
  by_cases hji : j ∈ st.2 ∨ j = i
  · rw [if_pos hji]; exact ⟨tail, h1, h2⟩
  · rw [if_neg hji]
    cases hg : drawings.get? j with
    | none => exact ⟨tail, h1, h2⟩
    | some o =>
      cases hr : o.rect with
      | none =>
        simp only [hr]
        exact ⟨tail, h1, h2⟩
      | some r2 =>
        simp only [hr]
        by_cases hclose : |r1.x0 - r2.x0| < 200 ∧ |r1.y0 - r2.y0| < 200
        · rw [if_pos hclose]
          refine ⟨tail ++ [o], by simp [h1], ?_⟩
          intro d hd
          rcases List.mem_append.mp hd with hd | hd
          · exact h2 d hd
          · rw [List.mem_singleton.mp hd]
            exact ⟨r2, hr, hclose.1, hclose.2⟩
        · rw [if_neg hclose]; exact ⟨tail, h1, h2⟩

lemma groupStep_pres (drawings : List Drawing)
    (st : List (List Drawing) × List Nat) (i : Nat)
    (h : ∀ g ∈ st.1, groupOK g) :
    ∀ g ∈ (groupStep drawings st i).1, groupOK g := by
  unfold groupStep
  by_cases hi : i ∈ st.2
  · rw [if_pos hi]; exact h
  · rw [if_neg hi]
    cases hd : drawings.get? i with
    | none => exact h
    | some d =>
      cases hr : d.rect with
      | none =>
        simp only [hr]
        exact h
      | some r1 =>
        simp only [hr]
        intro g hg
        rcases List.mem_append.mp hg with hg | hg
        · exact h g hg
        · have hstart : ∃ tail, (([d], st.2 ++ [i]) :
              List Drawing × List Nat).1 = d :: tail ∧
              ∀ x ∈ tail, closeToSeed r1 x := ⟨[], rfl, by simp⟩
          have hres := foldl_pres (groupInnerStep drawings i r1)
            (fun st' => ∃ tail, st'.1 = d :: tail ∧
              ∀ x ∈ tail, closeToSeed r1 x)
            (fun b a hb => groupInnerStep_pres drawings i r1 d b a hb)
            (List.range drawings.length) ([d], st.2 ++ [i]) hstart
          obtain ⟨tail, ht1, ht2⟩ := hres
          rw [List.mem_singleton.mp hg]
          exact ⟨d, tail, r1, ht1, hr, ht2⟩

/-- C6: every group built by `_group_drawings` is a seed (with a
rectangle) plus drawings whose rectangle's top-left corner is within 200
units of the seed's in both x and y; groups with fewer than 5 drawings,
union-bbox area below 10000, or no matching caption yield no record; a
surviving group yields exactly one record with the union bounding box and
the matched caption's type; `_extract_vector_graphics` is the
concatenation of the per-group results. -/
theorem claim_C6 :
    (∀ (drawings : List Drawing), ∀ g ∈ groupDrawings drawings, groupOK g) ∧
    (∀ render fullCap pageRect captions pageNum (g : List Drawing),
      g.length < 5 →
      processGroup render fullCap pageRect captions pageNum g = none) ∧
    (∀ render fullCap pageRect captions pageNum (d0 : Drawing)
      (rest : List Drawing),
      ¬ (d0 :: rest).length < 5 →
      (groupUnionBBox pageRect d0 rest).area < 10000 →
      processGroup render fullCap pageRect captions pageNum (d0 :: rest) =
        none) ∧
    (∀ render fullCap pageRect captions pageNum (d0 : Drawing)
      (rest : List Drawing),
      ¬ (d0 :: rest).length < 5 →
      ¬ (groupUnionBBox pageRect d0 rest).area < 10000 →
      findNearestCaption (groupUnionBBox pageRect d0 rest) captions = none →
      processGroup render fullCap pageRect captions pageNum (d0 :: rest) =
        none) ∧
    (∀ render fullCap pageRect captions pageNum (d0 : Drawing)
      (rest : List Drawing) (ci : Caption),
      ¬ (d0 :: rest).length < 5 →
      ¬ (groupUnionBBox pageRect d0 rest).area < 10000 →
      findNearestCaption (groupUnionBBox pageRect d0 rest) captions =
        some ci →
      processGroup render fullCap pageRect captions pageNum (d0 :: rest) =
        some (Figure.mk ci.ctype (pyStrip ci.cmatch) (fullCap ci) pageNum
          (groupUnionBBox pageRect d0 rest)
          (some ("data:image/png;base64," ++
            render (groupUnionBBox pageRect d0 rest))))) ∧
    (∀ render fullCap pageRect drawings captions pageNum,
      extractVectorGraphics render fullCap pageRect drawings captions
          pageNum =
        (groupDrawings drawings).filterMap
          (processGroup render fullCap pageRect captions pageNum)) := by
  refine ⟨?_, ?_, ?_, ?_, ?_, ?_⟩
  · intro drawings
    exact foldl_pres (groupStep drawings) (fun st => ∀ g ∈ st.1, groupOK g)
      (fun b a hb => groupStep_pres drawings b a hb)
      (List.range drawings.length) ([], []) (by simp)
  · intro render fullCap pageRect captions pageNum g hlen
    simp [processGroup, hlen]
  · intro render fullCap pageRect captions pageNum d0 rest hlen harea
    simp [processGroup, hlen, harea]
  · intro render fullCap pageRect captions pageNum d0 rest hlen harea hfind
    simp [processGroup, hlen, harea, hfind]
  · intro render fullCap pageRect captions pageNum d0 rest ci hlen harea hfind
    simp [processGroup, hlen, harea, hfind]
    simp only [List.length_cons] at hlen
    omega
  · intro render fullCap pageRect drawings captions pageNum
    cases drawings with
    | nil => rfl
    | cons d rest => rfl

/-- Witness for C6 at a concrete input: five overlapping 150×150 drawings
form one group; its union bounding box is captioned by a `Figure 2`
caption 10 units below it, so exactly one record is emitted with that
union box and type `Figure`. -/
theorem claim_C6_witness :
    processGroup (fun _ => "R") (fun _ => "FC") ⟨0, 0, 612, 792⟩
        [⟨"Figure", "Figure 2: results", ⟨0, 200, 80, 210⟩, "Figure 2"⟩] 3
        [⟨some ⟨0, 0, 150, 150⟩⟩, ⟨some ⟨10, 10, 160, 160⟩⟩,
         ⟨some ⟨20, 20, 170, 170⟩⟩, ⟨some ⟨30, 30, 180, 180⟩⟩,
         ⟨some ⟨40, 40, 190, 190⟩⟩] =
      some (Figure.mk "Figure" "Figure 2" "FC" 3
        (groupUnionBBox ⟨0, 0, 612, 792⟩ ⟨some ⟨0, 0, 150, 150⟩⟩
          [⟨some ⟨10, 10, 160, 160⟩⟩, ⟨some ⟨20, 20, 170, 170⟩⟩,
           ⟨some ⟨30, 30, 180, 180⟩⟩, ⟨some ⟨40, 40, 190, 190⟩⟩])
        (some ("data:image/png;base64," ++ "R"))) := by
  have hbb : groupUnionBBox ⟨0, 0, 612, 792⟩ ⟨some ⟨0, 0, 150, 150⟩⟩
      [⟨some ⟨10, 10, 160, 160⟩⟩, ⟨some ⟨20, 20, 170, 170⟩⟩,
       ⟨some ⟨30, 30, 180, 180⟩⟩, ⟨some ⟨40, 40, 190, 190⟩⟩] =
      ⟨0, 0, 190, 190⟩ := by
    norm_num [groupUnionBBox]
  have hfind : findNearestCaption
      (groupUnionBBox ⟨0, 0, 612, 792⟩ ⟨some ⟨0, 0, 150, 150⟩⟩
        [⟨some ⟨10, 10, 160, 160⟩⟩, ⟨some ⟨20, 20, 170, 170⟩⟩,
         ⟨some ⟨30, 30, 180, 180⟩⟩, ⟨some ⟨40, 40, 190, 190⟩⟩])
      [⟨"Figure", "Figure 2: results", ⟨0, 200, 80, 210⟩, "Figure 2"⟩] =
      some ⟨"Figure", "Figure 2: results", ⟨0, 200, 80, 210⟩, "Figure 2"⟩ := by
    rw [hbb]
    norm_num [findNearestCaption, nearestStep, vertDistance]
  have h := claim_C6.2.2.2.2.1 (fun _ => "R") (fun _ => "FC")
    ⟨0, 0, 612, 792⟩
    [⟨"Figure", "Figure 2: results", ⟨0, 200, 80, 210⟩, "Figure 2"⟩] 3
    ⟨some ⟨0, 0, 150, 150⟩⟩
    [⟨some ⟨10, 10, 160, 160⟩⟩, ⟨some ⟨20, 20, 170, 170⟩⟩,
     ⟨some ⟨30, 30, 180, 180⟩⟩, ⟨some ⟨40, 40, 190, 190⟩⟩]
    ⟨"Figure", "Figure 2: results", ⟨0, 200, 80, 210⟩, "Figure 2"⟩
    (by decide) (by rw [hbb]; norm_num [BoundingBox.area]) hfind
  exact h

lemma findBack_spec (figs : List Figure) (base : String) :
    ∀ i j, findBack figs base i = some j →
      j < i ∧ (∃ f, figs.get? j = some f ∧ f.name = base) ∧
      (∀ j' f', j < j' → j' < i → figs.get? j' = some f' →
        f'.name ≠ base) := by
  intro i
  induction i with
  | zero => intro j h; simp [findBack] at h
  | succ i ih =>
    intro j h
    rw [findBack] at h
    cases hg : figs.get? i with
    | some f =>
      simp only [hg] at h
      by_cases hname : f.name = base
      · rw [if_pos hname] at h
        obtain rfl : i = j := Option.some.inj h
        refine ⟨Nat.lt_succ_self i, ⟨f, hg, hname⟩, ?_⟩
        intro j' f' h1 h2 _
        omega
      · rw [if_neg hname] at h
        obtain ⟨hlt, hfound, hmax⟩ := ih j h
        refine ⟨Nat.lt_succ_of_lt hlt, hfound, ?_⟩
        intro j' f' h1 h2 hf'
        by_cases hji : j' = i
        · subst hji
          rw [hg] at hf'
          obtain rfl := Option.some.inj hf'
          exact hname
        · exact hmax j' f' h1 (by omega) hf'
    | none =>
      simp only [hg] at h
      obtain ⟨hlt, hfound, hmax⟩ := ih j h
      refine ⟨Nat.lt_succ_of_lt hlt, hfound, ?_⟩
      intro j' f' h1 h2 hf'
      by_cases hji : j' = i
      · subst hji
        rw [hg] at hf'
        exact absurd hf' (by simp)
      · exact hmax j' f' h1 (by omega) hf'

lemma mergeStep_none (st : List Figure × List Nat) (i : Nat)
    (h : st.1.get? i = none) : mergeStep st i = st := by
  unfold mergeStep
  rw [h]

lemma mergeStep_keep_nomarker (st : List Figure × List Nat) (i : Nat)
    (fig : Figure) (h1 : st.1.get? i = some fig)
    (h2 : hasContinuationMarker fig.caption = false) :
    mergeStep st i = (st.1, st.2 ++ [i]) := by
  unfold mergeStep
  rw [h1]
  simp [h2]

lemma mergeStep_keep_nomatch (st : List Figure × List Nat) (i : Nat)
    (fig : Figure) (h1 : st.1.get? i = some fig)
    (h2 : hasContinuationMarker fig.caption = true)
    (h3 : findBack st.1 (baseName fig.name) i = none) :
    mergeStep st i = (st.1, st.2 ++ [i]) := by
  unfold mergeStep
  rw [h1]
  simp [h2, h3]

lemma mergeStep_merge (st : List Figure × List Nat) (i : Nat)
    (fig : Figure) (j : Nat) (fj : Figure)
    (h1 : st.1.get? i = some fig)
    (h2 : hasContinuationMarker fig.caption = true)
    (h3 : findBack st.1 (baseName fig.name) i = some j)
    (h4 : st.1.get? j = some fj) :
    mergeStep st i =
      (st.1.set j { fj with caption := fj.caption ++ " " ++ fig.caption },
       st.2) := by
  have h4' : st.1[j]? = some fj := by
    rw [← List.get?_eq_getElem?]
    exact h4
  unfold mergeStep
  rw [h1]
  simp [h2, h3, h4, h4']

lemma mergeStep_inv (figs0 : List Figure) (k : Nat)
    (st : List Figure × List Nat) (h : mergeInv figs0 k st) :
    mergeInv figs0 (k + 1) (mergeStep st k) := by
  obtain ⟨hlen, hsim, hpw, hbound, hunt, hkeep⟩ := h
  cases hk : st.1.get? k with
  | none =>
    rw [mergeStep_none st k hk]
    refine ⟨hlen, hsim, hpw, fun i hi => Nat.lt_succ_of_lt (hbound i hi),
      fun j hj => hunt j (Nat.le_of_succ_le hj), ?_⟩
    intro i hi fig hfig hm
    rcases Nat.lt_succ_iff_lt_or_eq.mp hi with hi' | rfl
    · exact hkeep i hi' fig hfig hm
    · have h' := hunt i le_rfl
      rw [hk, hfig] at h'
      exact absurd h' (by simp)
  | some fig =>
    have hfig0 : figs0.get? k = some fig := by
      have h' := hunt k le_rfl
      rw [hk] at h'
      exact h'.symm
    cases hm : hasContinuationMarker fig.caption with
    | false =>
      rw [mergeStep_keep_nomarker st k fig hk hm]
      refine ⟨hlen, hsim, ?_, ?_,
        fun j hj => hunt j (Nat.le_of_succ_le hj), ?_⟩
      · rw [List.pairwise_append]
        refine ⟨hpw, List.pairwise_singleton _ _, ?_⟩
        intro a ha b hb
        rw [List.mem_singleton.mp hb]
        exact hbound a ha
      · intro i hi
        rcases List.mem_append.mp hi with hi | hi
        · exact Nat.lt_succ_of_lt (hbound i hi)
        · rw [List.mem_singleton.mp hi]
          exact Nat.lt_succ_self k
      · intro i hi fig' hfig' hm'
        rcases Nat.lt_succ_iff_lt_or_eq.mp hi with hi' | rfl
        · exact List.mem_append_left _ (hkeep i hi' fig' hfig' hm')
        · exact List.mem_append_right _ (List.mem_singleton.mpr rfl)
    | true =>
      cases hfb : findBack st.1 (baseName fig.name) k with
      | none =>
        rw [mergeStep_keep_nomatch st k fig hk hm hfb]
        refine ⟨hlen, hsim, ?_, ?_,
          fun j hj => hunt j (Nat.le_of_succ_le hj), ?_⟩
        · rw [List.pairwise_append]
          refine ⟨hpw, List.pairwise_singleton _ _, ?_⟩
          intro a ha b hb
          rw [List.mem_singleton.mp hb]
          exact hbound a ha
        · intro i hi
          rcases List.mem_append.mp hi with hi | hi
          · exact Nat.lt_succ_of_lt (hbound i hi)
          · rw [List.mem_singleton.mp hi]
            exact Nat.lt_succ_self k
        · intro i hi fig' hfig' hm'
          rcases Nat.lt_succ_iff_lt_or_eq.mp hi with hi' | rfl
          · exact List.mem_append_left _ (hkeep i hi' fig' hfig' hm')
          · exact List.mem_append_right _ (List.mem_singleton.mpr rfl)
      | some j =>
        obtain ⟨hjk, ⟨fj, hfj, hfjname⟩, hmax⟩ :=
          findBack_spec st.1 (baseName fig.name) k j hfb
        obtain ⟨hjlen, _⟩ := List.get?_eq_some.mp hfj
        rw [mergeStep_merge st k fig j fj hk hm hfb hfj]
        refine ⟨?_, ?_, hpw, fun i hi => Nat.lt_succ_of_lt (hbound i hi),
          ?_, ?_⟩
        · rw [List.length_set]
          exact hlen
        · intro j' a b ha hb
          by_cases hjj : j' = j
          · subst hjj
            rw [List.get?_set_eq_of_lt _ hjlen] at hb
            obtain rfl := (Option.some.inj hb).symm
            obtain ⟨e1, e2, e3, e4, e5, s, hs⟩ := hsim j' a fj ha hfj
            refine ⟨e1, e2, e3, e4, e5, s ++ (" " ++ fig.caption), ?_⟩
            show fj.caption ++ " " ++ fig.caption = _
            rw [hs, String.append_assoc, String.append_assoc]
          · rw [List.get?_set_ne _ _ (fun hn => hjj hn.symm)] at hb
            exact hsim j' a b ha hb
        · intro j' hj'
          have hne : j ≠ j' := by omega
          rw [List.get?_set_ne _ _ hne]
          exact hunt j' (Nat.le_of_succ_le hj')
        · intro i hi fig' hfig' hm'
          rcases Nat.lt_succ_iff_lt_or_eq.mp hi with hi' | rfl
          · exact hkeep i hi' fig' hfig' hm'
          · rw [hfig0] at hfig'
            obtain rfl := (Option.some.inj hfig').symm
            rw [hm] at hm'
            exact absurd hm' (by simp)

lemma mergeRun_inv (figs0 : List Figure) :
    mergeInv figs0 figs0.length (mergeRun figs0) := by
  have key : ∀ n, mergeInv figs0 n
      ((List.range n).foldl mergeStep (figs0, [])) := by
    intro n
    induction n with
    | zero =>
      refine ⟨rfl, ?_, List.Pairwise.nil, by simp, fun j _ => rfl,
        fun i hi => absurd hi (Nat.not_lt_zero i)⟩
      intro j a b ha hb
      simp only [List.range_zero, List.foldl_nil] at hb
      rw [ha] at hb
      obtain rfl := Option.some.inj hb
      exact ⟨rfl, rfl, rfl, rfl, rfl, "", (String.append_empty _).symm⟩
    | succ n ih =>
      rw [List.range_succ, List.foldl_append, List.foldl_cons,
        List.foldl_nil]
      exact mergeStep_inv figs0 n _ ih
  exact key figs0.length

lemma kept_filterMap (figs0 cur : List Figure)
    (hlen : cur.length = figs0.length)
    (hsim : ∀ j a b, figs0.get? j = some a → cur.get? j = some b →
      preservedExceptCaption a b) :
    ∀ ks : List Nat, (∀ i ∈ ks, i < figs0.length) →
      List.Forall₂ (fun i out => ∃ orig, figs0.get? i = some orig ∧
        preservedExceptCaption orig out) ks
        (ks.filterMap (fun i => cur.get? i)) := by
  intro ks
  induction ks with
  | nil =>
    intro _
    rw [List.filterMap_nil]
    exact List.Forall₂.nil
  | cons k rest ih =>
    intro hb
    have hk0 : k < figs0.length := hb k (List.mem_cons_self k rest)
    have hkc : k < cur.length := by rw [hlen]; exact hk0
    obtain ⟨b, hbk⟩ : ∃ b, cur.get? k = some b :=
      ⟨cur.get ⟨k, hkc⟩, List.get?_eq_get hkc⟩
    obtain ⟨a, hak⟩ : ∃ a, figs0.get? k = some a :=
      ⟨figs0.get ⟨k, hk0⟩, List.get?_eq_get hk0⟩
    simp only [List.filterMap_cons, hbk]
    exact List.Forall₂.cons ⟨a, hak, hsim k a b hak hbk⟩
      (ih (fun i hi => hb i (List.mem_cons_of_mem k hi)))

/-- C9: the merge pass returns a subsequence of the input records, in
their original relative order (a strictly increasing index list), each
surviving record keeping its `figure_type`, `name`, `page`, `bbox` and
`image_data` unchanged, its original caption being a prefix of the final
one (text can only be appended by continuation merges). -/
theorem claim_C9 (figs0 : List Figure) :
    ∃ idxs : List Nat, idxs.Pairwise (· < ·) ∧
      List.Forall₂ (fun i out => ∃ orig, figs0.get? i = some orig ∧
        preservedExceptCaption orig out) idxs
        (mergeMultipageElements figs0) := by
  obtain ⟨hlen, hsim, hpw, hbound, _, _⟩ := mergeRun_inv figs0
  refine ⟨(mergeRun figs0).2, hpw, ?_⟩
  simp only [mergeMultipageElements]
  exact kept_filterMap figs0 (mergeRun figs0).1 hlen hsim
    (mergeRun figs0).2 hbound

/-- C2 counterexample: the record `Table 3` (caption `T3`, no
continuation marker) does not pass through the merge unchanged — the
later `Table 3 continued` record's caption is appended to it. -/
theorem claim_C2_counterexample :
    hasContinuationMarker "T3" = false ∧
    mergeMultipageElements
        [Figure.mk "Table" "Table 3" "T3" 0 ⟨0, 0, 1, 1⟩ none,
         Figure.mk "Table" "Table 3" "Table 3 continued" 1 ⟨0, 0, 1, 1⟩
           none] =
      [Figure.mk "Table" "Table 3" "T3 Table 3 continued" 0 ⟨0, 0, 1, 1⟩
        none] ∧
    "T3 Table 3 continued" ≠ "T3" := by
  refine ⟨by decide, by decide, by decide⟩

/-- C2 (amended): a record whose caption contains a continuation marker
and that has a preceding record with the matching base name is dropped,
and the nearest such preceding record's caption receives the
continuation's full caption after a single space (on top of whatever has
already been appended to it); records with no marker, or with a marker
but no matching predecessor, are appended to the output — but a
no-marker record is not necessarily unchanged: it survives with all
non-caption fields intact and its original caption as a prefix, possibly
extended by merged continuation text. -/
theorem claim_C2 :
    (∀ (st : List Figure × List Nat) (i : Nat) (fig : Figure) (j : Nat)
      (fj : Figure),
      st.1.get? i = some fig →
      hasContinuationMarker fig.caption = true →
      findBack st.1 (baseName fig.name) i = some j →
      st.1.get? j = some fj →
      mergeStep st i =
        (st.1.set j { fj with caption := fj.caption ++ " " ++ fig.caption },
         st.2)) ∧
    (∀ (figs : List Figure) (base : String) (i j : Nat),
      findBack figs base i = some j →
      j < i ∧ (∃ f, figs.get? j = some f ∧ f.name = base) ∧
      (∀ j' f', j < j' → j' < i → figs.get? j' = some f' →
        f'.name ≠ base)) ∧
    (∀ (st : List Figure × List Nat) (i : Nat) (fig : Figure),
      st.1.get? i = some fig →
      hasContinuationMarker fig.caption = false →
      mergeStep st i = (st.1, st.2 ++ [i])) ∧
    (∀ (st : List Figure × List Nat) (i : Nat) (fig : Figure),
      st.1.get? i = some fig →
      hasContinuationMarker fig.caption = true →
      findBack st.1 (baseName fig.name) i = none →
      mergeStep st i = (st.1, st.2 ++ [i])) ∧
    (∀ (figs0 : List Figure) (i : Nat) (fig : Figure),
      figs0.get? i = some fig →
      hasContinuationMarker fig.caption = false →
      ∃ out ∈ mergeMultipageElements figs0,
        preservedExceptCaption fig out) := by
  refine ⟨mergeStep_merge, fun figs base i j h => findBack_spec figs base i j h,
    mergeStep_keep_nomarker, mergeStep_keep_nomatch, ?_⟩
  intro figs0 i fig hfig hm
  obtain ⟨hlen, hsim, _, _, _, hkeep⟩ := mergeRun_inv figs0
  obtain ⟨hilen, _⟩ := List.get?_eq_some.mp hfig
  have hmem : i ∈ (mergeRun figs0).2 := hkeep i hilen fig hfig hm
  have hic : i < (mergeRun figs0).1.length := by rw [hlen]; exact hilen
  obtain ⟨b, hb⟩ : ∃ b, (mergeRun figs0).1.get? i = some b :=
    ⟨_, List.get?_eq_get hic⟩
  refine ⟨b, ?_, hsim i fig b hfig hb⟩
  simp only [mergeMultipageElements]
  exact List.mem_filterMap.mpr ⟨i, hmem, hb⟩

/-- Witness for C2 (amended) at a concrete input: processing index 0
(no marker) keeps the record; processing index 1 (`Table 3 continued`)
merges its caption into record 0 and drops it. -/
theorem claim_C2_witness :
    mergeStep ([Figure.mk "Table" "Table 3" "T3" 0 ⟨0, 0, 1, 1⟩ none,
        Figure.mk "Table" "Table 3" "Table 3 continued" 1 ⟨0, 0, 1, 1⟩
          none], []) 0 =
      ([Figure.mk "Table" "Table 3" "T3" 0 ⟨0, 0, 1, 1⟩ none,
        Figure.mk "Table" "Table 3" "Table 3 continued" 1 ⟨0, 0, 1, 1⟩
          none], [0]) ∧
    mergeStep ([Figure.mk "Table" "Table 3" "T3" 0 ⟨0, 0, 1, 1⟩ none,
        Figure.mk "Table" "Table 3" "Table 3 continued" 1 ⟨0, 0, 1, 1⟩
          none], [0]) 1 =
      ([Figure.mk "Table" "Table 3" "T3 Table 3 continued" 0 ⟨0, 0, 1, 1⟩
          none,
        Figure.mk "Table" "Table 3" "Table 3 continued" 1 ⟨0, 0, 1, 1⟩
          none], [0]) := by
  constructor
  · exact claim_C2.2.2.1
      ([Figure.mk "Table" "Table 3" "T3" 0 ⟨0, 0, 1, 1⟩ none,
        Figure.mk "Table" "Table 3" "Table 3 continued" 1 ⟨0, 0, 1, 1⟩
          none], []) 0
      (Figure.mk "Table" "Table 3" "T3" 0 ⟨0, 0, 1, 1⟩ none) rfl (by decide)
  · have h := claim_C2.1
      ([Figure.mk "Table" "Table 3" "T3" 0 ⟨0, 0, 1, 1⟩ none,
        Figure.mk "Table" "Table 3" "Table 3 continued" 1 ⟨0, 0, 1, 1⟩
          none], [0]) 1
      (Figure.mk "Table" "Table 3" "Table 3 continued" 1 ⟨0, 0, 1, 1⟩ none)
      0 (Figure.mk "Table" "Table 3" "T3" 0 ⟨0, 0, 1, 1⟩ none)
      rfl (by decide) (by decide) rfl
    rw [h]
    rfl

end JournalClub
